import Mathlib

/-!
# Verification of the PICORadar benchmark-report generator

A shallow embedding of `scripts/generate_performance_report.py`: measurement
records are typed structures with optional fields (mirroring Python dict
`.get` with defaults), numbers are rationals, and each function of the script
is translated into a Lean definition of the same name.  Theorems `C1 … C10`
settle the frozen claims about the script.
-/

namespace PerfReport

/-- A benchmark measurement record, as read from the input JSON: every field
may be absent (Python reads them with `benchmark.get(key, default)`). -/
structure MeasurementRecord where
  name : Option String
  real_time : Option ℚ
  cpu_time : Option ℚ
  iterations : Option Int
  items_per_second : Option ℚ
deriving DecidableEq, Repr

/-- Nested CPU descriptor of the `context` mapping. -/
structure CpuInfo where
  name : Option String
  num_cpus : Option Nat
deriving DecidableEq, Repr

/-- The optional `context` mapping of the input JSON. -/
structure RunContext where
  host_name : Option String
  cpu_info : Option CpuInfo
deriving DecidableEq, Repr

/-- The loaded top-level structure: `benchmarks` list plus optional `context`
(`self.data.get('benchmarks', [])` / `self.data.get('context', {})`). -/
structure BenchData where
  benchmarks : List MeasurementRecord
  context : Option RunContext
deriving DecidableEq, Repr

/-- `listPrefixOf p l` decides whether `p` is an initial segment of `l`. -/
def listPrefixOf : List Char → List Char → Bool
  | [], _ => true
  | _ :: _, [] => false
  | a :: as, b :: bs => a == b && listPrefixOf as bs

/-- `listContainsSub p l` decides whether `p` occurs contiguously in `l`. -/
def listContainsSub : List Char → List Char → Bool
  | p, [] => listPrefixOf p []
  | p, s@(_ :: rest) => listPrefixOf p s || listContainsSub p rest

/-- Python's `pat in s` on strings: contiguous substring containment,
case-sensitive. -/
def strContains (s pat : String) : Bool :=
  listContainsSub pat.data s.data

/-- The five fixed categories of `categorize_benchmarks`. -/
inductive Category where
  | core | network | config | memory | other
deriving DecidableEq, Repr

/-- The name a record is classified by: `benchmark.get('name', '')`
(line 67 of the script). -/
def nameForClassify (b : MeasurementRecord) : String :=
  b.name.getD ""

/-- The if/elif chain of `categorize_benchmarks` (lines 69-78), as a pure
function of the name string. -/
def categoryOfName (name : String) : Category :=
  if strContains name "PlayerRegistry" then .core
  else if strContains name "Protobuf" || strContains name "Batch"
      || strContains name "Serialization" then .network
  else if strContains name "Config" then .config
  else if strContains name "Memory" then .memory
  else .other

/-- Category assigned to a record. -/
def categoryOf (b : MeasurementRecord) : Category :=
  categoryOfName (nameForClassify b)

/-- The five category lists built by `categorize_benchmarks`, in declaration
order Core, Network, Config, Memory, Other. -/
structure Categories where
  core : List MeasurementRecord
  network : List MeasurementRecord
  config : List MeasurementRecord
  memory : List MeasurementRecord
  other : List MeasurementRecord
deriving DecidableEq, Repr

/-- One iteration of the classification loop: append the record to the list
of its category (`categories[...].append(benchmark)`). -/
def categorizeStep (cats : Categories) (b : MeasurementRecord) : Categories :=
  match categoryOf b with
  | .core => { cats with core := cats.core ++ [b] }
  | .network => { cats with network := cats.network ++ [b] }
  | .config => { cats with config := cats.config ++ [b] }
  | .memory => { cats with memory := cats.memory ++ [b] }
  | .other => { cats with other := cats.other ++ [b] }

/-- `categorize_benchmarks` (lines 56-80): fold the loop over the input
list, starting from five empty lists. -/
def categorize_benchmarks (bs : List MeasurementRecord) : Categories :=
  bs.foldl categorizeStep ⟨[], [], [], [], []⟩

/-- Round the fraction `n / d` (with `d > 0`) to the nearest integer, ties
to even — the rounding of Python's fixed-point float formatting.  The floor
is `n.fdiv d` and the doubled remainder `2 * (n - f * d)` is compared
against `d` to decide the direction of rounding. -/
def roundHalfEvenND (n d : ℤ) : ℤ :=
  let f := Int.fdiv n d
  let r2 := 2 * (n - f * d)
  if r2 < d then f
  else if d < r2 then f + 1
  else if f % 2 = 0 then f else f + 1

/-- Round `100 * q` to the nearest integer, ties to even, computed on the
reduced numerator and denominator of `q`: the rounding step of `f"{x:.2f}"`. -/
def roundHundredths (q : ℚ) : ℤ :=
  roundHalfEvenND (100 * q.num) (q.den : ℤ)

/-- Round `q` to the nearest integer, ties to even: the rounding step of
`f"{x:.0f}"`. -/
def roundUnits (q : ℚ) : ℤ :=
  roundHalfEvenND q.num (q.den : ℤ)

/-- Render a natural number of hundredths as a decimal numeral with exactly
two digits after the point. -/
def twoDecOfNat (m : Nat) : String :=
  toString (m / 100) ++ "." ++
    String.mk [Nat.digitChar (m / 10 % 10), Nat.digitChar (m % 10)]

/-- Python's `f"{x:.2f}"`: round to hundredths (ties to even) and print with
exactly two decimal digits. -/
def format2dec (q : ℚ) : String :=
  let n := roundHundredths q
  if n < 0 then "-" ++ twoDecOfNat (-n).toNat else twoDecOfNat n.toNat

/-- `format_time` (lines 34-43): tiered duration formatting in base 1000
with suffixes ns, μs, ms, s. -/
def format_time (time_ns : ℚ) : String :=
  if time_ns < 1000 then format2dec time_ns ++ " ns"
  else if time_ns < 1000000 then format2dec (time_ns / 1000) ++ " μs"
  else if time_ns < 1000000000 then format2dec (time_ns / 1000000) ++ " ms"
  else format2dec (time_ns / 1000000000) ++ " s"

/-- The read of the timing field, defaulting an absent value to 0:
`b.get("real_time", 0)`. -/
def realTimeOf (b : MeasurementRecord) : ℚ :=
  b.real_time.getD 0

/-- `b.get('cpu_time', 0)`. -/
def cpuTimeOf (b : MeasurementRecord) : ℚ :=
  b.cpu_time.getD 0

/-- The list `times` of `generate_summary_stats` (line 87):
`[b.get('real_time', 0) for b in benchmarks]`. -/
def timesOf (bs : List MeasurementRecord) : List ℚ :=
  bs.map realTimeOf

/-- Python `min` over a list of rationals (`0` supplied for the impossible
empty case; `generate_summary_stats` only calls it on non-empty input). -/
def listMin : List ℚ → ℚ
  | [] => 0
  | x :: r => r.foldl min x

/-- Python `max` over a list of rationals. -/
def listMax : List ℚ → ℚ
  | [] => 0
  | x :: r => r.foldl max x

/-- `statistics.mean`: the arithmetic mean, sum divided by length. -/
def statsMean (xs : List ℚ) : ℚ :=
  xs.sum / (xs.length : ℚ)

/-- Middle extraction of `statistics.median` on an already sorted list: the
middle element for odd length, the average of the two middle elements for
even length. -/
def medianOfSorted (s : List ℚ) : ℚ :=
  if s.length % 2 = 1 then s.getD (s.length / 2) 0
  else (s.getD (s.length / 2 - 1) 0 + s.getD (s.length / 2) 0) / 2

/-- `statistics.median`: sort, then take the middle. -/
def statsMedian (xs : List ℚ) : ℚ :=
  medianOfSorted (xs.insertionSort (· ≤ ·))

/-- The summary-statistics record returned by `generate_summary_stats` for
non-empty input (lines 89-96). -/
structure SummaryStats where
  count : Nat
  avg_time : ℚ
  median_time : ℚ
  min_time : ℚ
  max_time : ℚ
  total_tests : Nat
deriving DecidableEq, Repr

/-- The non-empty branch of `generate_summary_stats`. -/
def summaryStatsCore (bs : List MeasurementRecord) : SummaryStats :=
  let times := timesOf bs
  { count := bs.length
    avg_time := statsMean times
    median_time := statsMedian times
    min_time := listMin times
    max_time := listMax times
    total_tests := bs.length }

/-- `generate_summary_stats` (lines 82-96): the empty dict for an empty
list, otherwise the statistics record. -/
def generate_summary_stats (bs : List MeasurementRecord) : Option SummaryStats :=
  if bs.isEmpty then none else some (summaryStatsCore bs)

/-- The severity class of a row (line 305): good below 1 ms, warning below
10 ms, danger otherwise. -/
def time_class (real_time : ℚ) : String :=
  if real_time < 1000000 then "good"
  else if real_time < 10000000 then "warning"
  else "danger"

/-- Insert a comma after every three digits, walking a digit list given
least-significant first; position `k` counts emitted digits. -/
def commaRev (k : Nat) : List Char → List Char
  | [] => []
  | c :: cs =>
      if k ≠ 0 && k % 3 == 0 then ',' :: c :: commaRev (k + 1) cs
      else c :: commaRev (k + 1) cs

/-- Python's `f"{n:,}"` on a natural number: decimal digits grouped in
threes by commas. -/
def natWithCommas (n : Nat) : String :=
  String.mk ((commaRev 0 (toString n).data.reverse).reverse)

/-- Python's `f"{i:,}"` on an integer. -/
def intWithCommas (i : ℤ) : String :=
  if i < 0 then "-" ++ natWithCommas i.natAbs else natWithCommas i.toNat

/-- The throughput cell (lines 301-302): `"<rounded> items/sec"` when
`items_per_second` is positive, else `"N/A"`. -/
def throughputStr (b : MeasurementRecord) : String :=
  let items_per_sec := b.items_per_second.getD 0
  if 0 < items_per_sec then toString (roundUnits items_per_sec) ++ " items/sec"
  else "N/A"

/-- The display name of a row (line 295): `benchmark.get('name', 'Unknown')`. -/
def nameForRow (b : MeasurementRecord) : String :=
  b.name.getD "Unknown"

/-- One table row (lines 307-315). -/
def rowHtml (b : MeasurementRecord) : String :=
  "\n                    <tr>\n                        <td class=\"benchmark-name\">"
    ++ nameForRow b
    ++ "</td>\n                        <td class=\"time-cell " ++ time_class (realTimeOf b)
    ++ "\">" ++ format_time (realTimeOf b)
    ++ "</td>\n                        <td class=\"time-cell\">" ++ format_time (cpuTimeOf b)
    ++ "</td>\n                        <td>" ++ intWithCommas (b.iterations.getD 0)
    ++ "</td>\n                        <td>" ++ throughputStr b
    ++ "</td>\n                    </tr>\n"

/-- The sort key order of the table (line 294):
`sorted(benchmarks, key=lambda x: x.get('real_time', 0))`. -/
def rtLe (a b : MeasurementRecord) : Prop :=
  realTimeOf a ≤ realTimeOf b

instance : DecidableRel rtLe := fun a b =>
  inferInstanceAs (Decidable (realTimeOf a ≤ realTimeOf b))

instance : IsTotal MeasurementRecord rtLe :=
  ⟨fun a b => le_total (realTimeOf a) (realTimeOf b)⟩

instance : IsTrans MeasurementRecord rtLe :=
  ⟨fun _ _ _ hab hbc => le_trans hab hbc⟩

/-- The table body order: records sorted ascending by `real_time`
(a stable sort, as Python's `sorted`). -/
def sortedByRealTime (bs : List MeasurementRecord) : List MeasurementRecord :=
  bs.insertionSort rtLe

/-- `self.data.get('context', {})`. -/
def contextOf (d : BenchData) : RunContext :=
  d.context.getD ⟨none, none⟩

/-- `context_info.get('host_name', 'Unknown')`. -/
def hostStr (d : BenchData) : String :=
  (contextOf d).host_name.getD "Unknown"

/-- `context_info.get('cpu_info', {})`. -/
def cpuInfoOf (d : BenchData) : CpuInfo :=
  (contextOf d).cpu_info.getD ⟨none, none⟩

/-- `context_info.get('cpu_info', {}).get('name', 'Unknown')`. -/
def cpuNameStr (d : BenchData) : String :=
  (cpuInfoOf d).name.getD "Unknown"

/-- `context_info.get('cpu_info', {}).get('num_cpus', 'N/A')`. -/
def numCpusStr (d : BenchData) : String :=
  match (cpuInfoOf d).num_cpus with
  | none => "N/A"
  | some n => toString n

/-- The constant page head of the report (lines 106-232 of the template):
doctype, meta, title, the inline stylesheet, the main heading, and the
summary block up to the generation-timestamp slot.  The stylesheet is a
fixed string constant of the script whose bytes no claim depends on; it is
abbreviated here to a placeholder. -/
def htmlHead : String :=
  "\n<!DOCTYPE html>\n<html lang=\"zh-CN\">\n<head>\n    <meta charset=\"UTF-8\">\n"
    ++ "    <meta name=\"viewport\" content=\"width=device-width, initial-scale=1.0\">\n"
    ++ "    <title>PICORadar 性能基准测试报告</title>\n"
    ++ "    <style>stylesheet-elided</style>\n</head>\n<body>\n"
    ++ "    <div class=\"container\">\n        <h1>🚀 PICORadar 性能基准测试报告</h1>\n"
    ++ "        \n        <div class=\"summary\">\n            <h2>📊 测试概览</h2>\n"
    ++ "            <div class=\"info-grid\">\n                <div class=\"info-box\">\n"
    ++ "                    <strong>生成时间</strong><br>\n                    "

/-- The remainder of the summary block after the timestamp (lines 233-248):
host name, CPU name and core count, total benchmark count. -/
def infoAfterTs (d : BenchData) : String :=
  "\n                </div>\n                <div class=\"info-box\">\n"
    ++ "                    <strong>测试主机</strong><br>\n                    "
    ++ hostStr d
    ++ "\n                </div>\n                <div class=\"info-box\">\n"
    ++ "                    <strong>CPU</strong><br>\n                    "
    ++ cpuNameStr d ++ " \n                    (" ++ numCpusStr d ++ " cores)\n"
    ++ "                </div>\n                <div class=\"info-box\">\n"
    ++ "                    <strong>测试总数</strong><br>\n                    "
    ++ toString d.benchmarks.length ++ " 个基准测试\n"
    ++ "                </div>\n            </div>\n        </div>\n"

/-- One category section (lines 258-321): header, four summary items
(count, average, fastest, slowest) and the table of rows sorted ascending
by `real_time`. -/
def sectionHtml (category_name : String) (stats : SummaryStats)
    (bs : List MeasurementRecord) : String :=
  "\n        <div class=\"category-section\">\n            <h2>📁 " ++ category_name
    ++ " 模块测试</h2>\n            \n            <div class=\"summary-grid\">\n"
    ++ "                <div class=\"summary-item\">\n                    <strong>"
    ++ toString stats.count
    ++ "</strong>\n                    测试数量\n                </div>\n"
    ++ "                <div class=\"summary-item\">\n                    <strong>"
    ++ format_time stats.avg_time
    ++ "</strong>\n                    平均执行时间\n                </div>\n"
    ++ "                <div class=\"summary-item\">\n                    <strong>"
    ++ format_time stats.min_time
    ++ "</strong>\n                    最快时间\n                </div>\n"
    ++ "                <div class=\"summary-item\">\n                    <strong>"
    ++ format_time stats.max_time
    ++ "</strong>\n                    最慢时间\n                </div>\n"
    ++ "            </div>\n            \n            <table>\n                <thead>\n"
    ++ "                    <tr>\n                        <th>测试名称</th>\n"
    ++ "                        <th>执行时间</th>\n                        <th>CPU 时间</th>\n"
    ++ "                        <th>迭代次数</th>\n                        <th>吞吐量</th>\n"
    ++ "                    </tr>\n                </thead>\n                <tbody>\n"
    ++ String.join ((sortedByRealTime bs).map rowHtml)
    ++ "\n                </tbody>\n            </table>\n        </div>\n"

/-- One pass of the per-category loop (lines 252-256): an empty category is
skipped entirely (`continue`), a non-empty one renders its section from its
summary statistics. -/
def renderCategory (category_name : String) (bs : List MeasurementRecord) : String :=
  if bs.isEmpty then "" else sectionHtml category_name (summaryStatsCore bs) bs

/-- All five category sections, in the fixed declaration order of the
`categories` dict: Core, Network, Config, Memory, Other. -/
def categorySectionsHtml (d : BenchData) : String :=
  let cats := categorize_benchmarks d.benchmarks
  renderCategory "Core" cats.core
    ++ renderCategory "Network" cats.network
    ++ renderCategory "Config" cats.config
    ++ renderCategory "Memory" cats.memory
    ++ renderCategory "Other" cats.other

/-- The footer (lines 323-331), naming the input source file. -/
def footerHtml (inputName : String) : String :=
  "\n        <div class=\"footer\">\n"
    ++ "            <p>📝 该报告由 PICORadar 基准测试系统自动生成</p>\n"
    ++ "            <p>🔧 数据源: " ++ inputName
    ++ "</p>\n        </div>\n    </div>\n</body>\n</html>\n"

/-- The full document for loaded data (the body of `generate_html_report`
after the data check), as a function of the loaded structure, the render
timestamp string (`datetime.now().strftime(...)` captured at render time)
and the input file name. -/
def renderFull (d : BenchData) (ts inputName : String) : String :=
  htmlHead ++ ts ++ infoAfterTs d ++ categorySectionsHtml d ++ footerHtml inputName

/-- `generate_html_report` (lines 98-333): the stub page when no data is
loaded, otherwise the full document. -/
def generate_html_report (data : Option BenchData) (ts inputName : String) : String :=
  match data with
  | none => "<html><body><h1>No data available</h1></body></html>"
  | some d => renderFull d ts inputName

/-- `generate_report` (lines 335-351).  The argument models the outcome of
`load_data`: `none` when loading raised (missing or malformed input), in
which case the method returns `False` before anything is written; otherwise
the loaded value.  The second component of the result is the content
written to the output file (`none` = the file is never opened). -/
def generate_report (load : Option (Option BenchData)) (ts inputName : String) :
    Bool × Option String :=
  match load with
  | none => (false, none)
  | some d => (true, some (generate_html_report d ts inputName))

/-- `main` (lines 353-376): a missing input file reports and returns `1`
before the generator is even constructed; otherwise the exit code follows
`generate_report`'s boolean. -/
def mainRun (inputExists : Bool) (load : Option (Option BenchData))
    (ts inputName : String) : Nat × Option String :=
  if inputExists then
    let r := generate_report load ts inputName
    if r.1 then (0, r.2) else (1, r.2)
  else (1, none)

/-! ## Classifier lemmas -/

/-- The records of `bs` whose classifier category is `c`, in input order. -/
def catFilter (c : Category) (bs : List MeasurementRecord) : List MeasurementRecord :=
  bs.filter (fun b => decide (categoryOf b = c))

theorem categorize_foldl (bs : List MeasurementRecord) (cats : Categories) :
    bs.foldl categorizeStep cats =
      ⟨cats.core ++ catFilter .core bs,
       cats.network ++ catFilter .network bs,
       cats.config ++ catFilter .config bs,
       cats.memory ++ catFilter .memory bs,
       cats.other ++ catFilter .other bs⟩ := by
  induction bs generalizing cats with
  | nil => simp [catFilter]
  | cons b bs ih =>
      rw [List.foldl_cons, ih]
      rcases h : categoryOf b with _ | _ | _ | _ | _ <;>
        simp [categorizeStep, h, catFilter, List.filter_cons]

theorem categorize_eq (bs : List MeasurementRecord) :
    categorize_benchmarks bs =
      ⟨catFilter .core bs, catFilter .network bs, catFilter .config bs,
       catFilter .memory bs, catFilter .other bs⟩ := by
  rw [categorize_benchmarks, categorize_foldl]
  simp

theorem count_catFilter (c : Category) (r : MeasurementRecord)
    (bs : List MeasurementRecord) :
    (catFilter c bs).count r = if categoryOf r = c then bs.count r else 0 := by
  by_cases h : categoryOf r = c
  · rw [if_pos h, catFilter, List.count_filter]
    simpa using h
  · rw [if_neg h, List.count_eq_zero]
    intro hmem
    rcases List.mem_filter.1 hmem with ⟨_, hp⟩
    exact h (of_decide_eq_true hp)

/-- C1: the classifier assigns each record to exactly one of the five
categories: each category list is exactly the subsequence of input records
classified to it (hence keeps each record's original input order and drops
nothing that belongs elsewhere), and the five lists together contain every
input record exactly as often as the input does — nothing dropped, nothing
duplicated. -/
theorem C1_classifier_partition (bs : List MeasurementRecord) :
    (categorize_benchmarks bs).core = catFilter .core bs ∧
    (categorize_benchmarks bs).network = catFilter .network bs ∧
    (categorize_benchmarks bs).config = catFilter .config bs ∧
    (categorize_benchmarks bs).memory = catFilter .memory bs ∧
    (categorize_benchmarks bs).other = catFilter .other bs ∧
    ∀ r : MeasurementRecord,
      ((categorize_benchmarks bs).core ++ (categorize_benchmarks bs).network ++
        (categorize_benchmarks bs).config ++ (categorize_benchmarks bs).memory ++
        (categorize_benchmarks bs).other).count r = bs.count r := by
  rw [categorize_eq]
  refine ⟨rfl, rfl, rfl, rfl, rfl, fun r => ?_⟩
  simp only [List.count_append, count_catFilter]
  rcases h : categoryOf r with _ | _ | _ | _ | _ <;> simp [h]

/-- C2: the classification rules are evaluated in fixed priority order with
first match winning, by case-sensitive substring containment: PlayerRegistry
→ Core, else Protobuf/Batch/Serialization → Network, else Config → Config,
else Memory → Memory, else Other.  A name containing "PlayerRegistry" is
Core even when it also contains "Config", and matching is case-sensitive. -/
theorem C2_priority_order (n : String) :
    (strContains n "PlayerRegistry" = true → categoryOfName n = .core) ∧
    (strContains n "PlayerRegistry" = false →
      (strContains n "Protobuf" = true ∨ strContains n "Batch" = true ∨
        strContains n "Serialization" = true) → categoryOfName n = .network) ∧
    (strContains n "PlayerRegistry" = false → strContains n "Protobuf" = false →
      strContains n "Batch" = false → strContains n "Serialization" = false →
      strContains n "Config" = true → categoryOfName n = .config) ∧
    (strContains n "PlayerRegistry" = false → strContains n "Protobuf" = false →
      strContains n "Batch" = false → strContains n "Serialization" = false →
      strContains n "Config" = false → strContains n "Memory" = true →
      categoryOfName n = .memory) ∧
    (strContains n "PlayerRegistry" = false → strContains n "Protobuf" = false →
      strContains n "Batch" = false → strContains n "Serialization" = false →
      strContains n "Config" = false → strContains n "Memory" = false →
      categoryOfName n = .other) ∧
    categoryOfName "BM_PlayerRegistry_Insert" = .core ∧
    categoryOfName "BM_PlayerRegistry_Config_Update" = .core ∧
    categoryOfName "BM_playerregistry_insert" = .other := by
  refine ⟨?_, ?_, ?_, ?_, ?_, by decide, by decide, by decide⟩
  · intro h1
    simp [categoryOfName, h1]
  · intro h1 h2
    rcases h2 with h | h | h <;> simp [categoryOfName, h1, h]
  · intro h1 h2 h3 h4 h5
    simp [categoryOfName, h1, h2, h3, h4, h5]
  · intro h1 h2 h3 h4 h5 h6
    simp [categoryOfName, h1, h2, h3, h4, h5, h6]
  · intro h1 h2 h3 h4 h5 h6
    simp [categoryOfName, h1, h2, h3, h4, h5, h6]

theorem C2_priority_order_witness :
    categoryOfName "BM_PlayerRegistry_Config_Update" = Category.core :=
  (C2_priority_order "BM_PlayerRegistry_Config_Update").1 (by decide)

/-! ## Formatter lemmas -/

theorem digitChar_isDigit : ∀ d : Nat, d < 10 → (Nat.digitChar d).isDigit = true := by
  decide

theorem roundHundredths_nonneg (q : ℚ) (h : 0 ≤ q) : 0 ≤ roundHundredths q := by
  have hn : (0 : ℤ) ≤ 100 * q.num := mul_nonneg (by norm_num) (Rat.num_nonneg.2 h)
  have hf : 0 ≤ Int.fdiv (100 * q.num) (q.den : ℤ) :=
    Int.fdiv_nonneg hn (Int.natCast_nonneg _)
  simp only [roundHundredths, roundHalfEvenND]
  split_ifs <;> omega

theorem format2dec_shape (q : ℚ) (h : 0 ≤ q) :
    ∃ pre c1 c2, format2dec q = pre ++ "." ++ String.mk [c1, c2] ∧
      c1.isDigit = true ∧ c2.isDigit = true := by
  have hnn := roundHundredths_nonneg q h
  simp only [format2dec, twoDecOfNat, if_neg (by omega : ¬ roundHundredths q < 0)]
  exact ⟨toString ((roundHundredths q).toNat / 100), _, _, rfl,
    digitChar_isDigit _ (Nat.mod_lt _ (by norm_num)),
    digitChar_isDigit _ (Nat.mod_lt _ (by norm_num))⟩

/-- C3: `format_time` selects the unit by tier (ns below 1000, μs below
1,000,000, ms below 1,000,000,000, s above), divides by the matching power
of 1000 and renders the quotient with exactly two decimal digits plus the
unit suffix; with the four concrete values of the spec. -/
theorem C3_format_duration (d : ℚ) :
    (d < 1000 → format_time d = format2dec d ++ " ns") ∧
    (1000 ≤ d → d < 1000000 → format_time d = format2dec (d / 1000) ++ " μs") ∧
    (1000000 ≤ d → d < 1000000000 →
      format_time d = format2dec (d / 1000000) ++ " ms") ∧
    (1000000000 ≤ d → format_time d = format2dec (d / 1000000000) ++ " s") ∧
    (∀ q : ℚ, 0 ≤ q → ∃ pre c1 c2,
      format2dec q = pre ++ "." ++ String.mk [c1, c2] ∧
        c1.isDigit = true ∧ c2.isDigit = true) ∧
    format_time 999 = "999.00 ns" ∧ format_time 1500 = "1.50 μs" ∧
    format_time 2500000 = "2.50 ms" ∧ format_time 3000000000 = "3.00 s" := by
  refine ⟨?_, ?_, ?_, ?_, fun q hq => format2dec_shape q hq, by decide, ?_, ?_, ?_⟩
  · intro h
    rw [format_time, if_pos h]
  · intro h1 h2
    rw [format_time, if_neg (not_lt.2 h1), if_pos h2]
  · intro h1 h2
    rw [format_time, if_neg (not_lt.2 (by linarith)), if_neg (not_lt.2 h1), if_pos h2]
  · intro h1
    rw [format_time, if_neg (not_lt.2 (by linarith)), if_neg (not_lt.2 (by linarith)),
      if_neg (not_lt.2 h1)]
  · have h : (1500 : ℚ) / 1000 = mkRat 3 2 := by
      rw [Rat.mkRat_eq_divInt, Rat.divInt_eq_div]; norm_num
    have h1 : format_time 1500 = format2dec ((1500 : ℚ) / 1000) ++ " μs" := by
      norm_num [format_time]
    rw [h1, h]; decide
  · have h : (2500000 : ℚ) / 1000000 = mkRat 5 2 := by
      rw [Rat.mkRat_eq_divInt, Rat.divInt_eq_div]; norm_num
    have h1 : format_time 2500000 = format2dec ((2500000 : ℚ) / 1000000) ++ " ms" := by
      norm_num [format_time]
    rw [h1, h]; decide
  · have h : (3000000000 : ℚ) / 1000000000 = mkRat 3 1 := by
      rw [Rat.mkRat_eq_divInt, Rat.divInt_eq_div]; norm_num
    have h1 : format_time 3000000000 = format2dec ((3000000000 : ℚ) / 1000000000) ++ " s" := by
      norm_num [format_time]
    rw [h1, h]; decide

theorem C3_format_duration_witness :
    format_time 500 = format2dec 500 ++ " ns" :=
  (C3_format_duration 500).1 (by decide)

/-! ## Aggregator lemmas -/

theorem foldl_min_le (l : List ℚ) : ∀ x : ℚ, l.foldl min x ≤ x := by
  induction l with
  | nil => intro x; simp
  | cons y ys ih =>
      intro x
      calc ys.foldl min (min x y) ≤ min x y := ih (min x y)
        _ ≤ x := min_le_left x y

theorem foldl_min_le_mem (l : List ℚ) : ∀ x : ℚ, ∀ y ∈ l, l.foldl min x ≤ y := by
  induction l with
  | nil => intro x y hy; simp at hy
  | cons z zs ih =>
      intro x y hy
      rcases List.mem_cons.1 hy with rfl | hy
      · calc zs.foldl min (min x y) ≤ min x y := foldl_min_le zs (min x y)
          _ ≤ y := min_le_right x y
      · exact ih (min x z) y hy

theorem foldl_min_mem (l : List ℚ) : ∀ x : ℚ, l.foldl min x ∈ x :: l := by
  induction l with
  | nil => intro x; simp
  | cons y ys ih =>
      intro x
      rcases List.mem_cons.1 (ih (min x y)) with hmem | hmem
      · rcases min_choice x y with hc | hc <;> rw [List.foldl_cons, hmem, hc]
        · exact List.mem_cons_self _ _
        · exact List.mem_cons_of_mem _ (List.mem_cons_self _ _)
      · exact List.mem_cons_of_mem _ (List.mem_cons_of_mem _ hmem)

theorem le_foldl_max (l : List ℚ) : ∀ x : ℚ, x ≤ l.foldl max x := by
  induction l with
  | nil => intro x; simp
  | cons y ys ih =>
      intro x
      calc x ≤ max x y := le_max_left x y
        _ ≤ ys.foldl max (max x y) := ih (max x y)

theorem mem_le_foldl_max (l : List ℚ) : ∀ x : ℚ, ∀ y ∈ l, y ≤ l.foldl max x := by
  induction l with
  | nil => intro x y hy; simp at hy
  | cons z zs ih =>
      intro x y hy
      rcases List.mem_cons.1 hy with rfl | hy
      · calc y ≤ max x y := le_max_right x y
          _ ≤ zs.foldl max (max x y) := le_foldl_max zs (max x y)
      · exact ih (max x z) y hy

theorem foldl_max_mem (l : List ℚ) : ∀ x : ℚ, l.foldl max x ∈ x :: l := by
  induction l with
  | nil => intro x; simp
  | cons y ys ih =>
      intro x
      rcases List.mem_cons.1 (ih (max x y)) with hmem | hmem
      · rcases max_choice x y with hc | hc <;> rw [List.foldl_cons, hmem, hc]
        · exact List.mem_cons_self _ _
        · exact List.mem_cons_of_mem _ (List.mem_cons_self _ _)
      · exact List.mem_cons_of_mem _ (List.mem_cons_of_mem _ hmem)

theorem listMin_le (xs : List ℚ) (t : ℚ) (ht : t ∈ xs) : listMin xs ≤ t := by
  cases xs with
  | nil => simp at ht
  | cons x r =>
      rcases List.mem_cons.1 ht with rfl | ht
      · exact foldl_min_le r t
      · exact foldl_min_le_mem r x t ht

theorem listMin_mem (xs : List ℚ) (h : xs ≠ []) : listMin xs ∈ xs := by
  cases xs with
  | nil => exact absurd rfl h
  | cons x r => exact foldl_min_mem r x

theorem le_listMax (xs : List ℚ) (t : ℚ) (ht : t ∈ xs) : t ≤ listMax xs := by
  cases xs with
  | nil => simp at ht
  | cons x r =>
      rcases List.mem_cons.1 ht with rfl | ht
      · exact le_foldl_max r t
      · exact mem_le_foldl_max r x t ht

theorem listMax_mem (xs : List ℚ) (h : xs ≠ []) : listMax xs ∈ xs := by
  cases xs with
  | nil => exact absurd rfl h
  | cons x r => exact foldl_max_mem r x

/-- The concrete example of the spec: five records whose `real_time` values
are 5, 3, 1, 4, 2 nanoseconds. -/
def exampleRecords : List MeasurementRecord :=
  [⟨some "A", some 5, none, none, none⟩, ⟨some "B", some 3, none, none, none⟩,
   ⟨some "C", some 1, none, none, none⟩, ⟨some "D", some 4, none, none, none⟩,
   ⟨some "E", some 2, none, none, none⟩]

/-- C4: for a non-empty category, `generate_summary_stats` reports the
length as count, the arithmetic mean over the `real_time` values, the
median of a sorted permutation of those values (average of the two middle
elements for even counts, by `medianOfSorted`), and min/max that belong to
the value list and bound every element; on the spec's example the result is
count 5, mean 3, median 3, min 1, max 5. -/
theorem C4_summary_stats (bs : List MeasurementRecord) (h : bs ≠ []) :
    (∃ s, generate_summary_stats bs = some s ∧
      s.count = bs.length ∧
      s.avg_time = (bs.map realTimeOf).sum / ((bs.map realTimeOf).length : ℚ) ∧
      (∃ sorted, sorted.Perm (bs.map realTimeOf) ∧ sorted.Sorted (· ≤ ·) ∧
        s.median_time = medianOfSorted sorted) ∧
      s.min_time ∈ bs.map realTimeOf ∧ s.max_time ∈ bs.map realTimeOf ∧
      (∀ t ∈ bs.map realTimeOf, s.min_time ≤ t ∧ t ≤ s.max_time)) ∧
    generate_summary_stats exampleRecords = some ⟨5, 3, 3, 1, 5, 5⟩ := by
  have hne : bs.map realTimeOf ≠ [] := by
    intro hnil
    exact h (List.map_eq_nil_iff.1 hnil)
  constructor
  · refine ⟨summaryStatsCore bs, ?_, rfl, rfl,
      ⟨(bs.map realTimeOf).insertionSort (· ≤ ·),
        List.perm_insertionSort _ _, List.sorted_insertionSort _ _, rfl⟩,
      listMin_mem _ hne, listMax_mem _ hne,
      fun t ht => ⟨listMin_le _ t ht, le_listMax _ t ht⟩⟩
    rw [generate_summary_stats, if_neg (by simpa [List.isEmpty_iff] using h)]
  · have havg : statsMean (timesOf exampleRecords) = 3 := by
      norm_num [timesOf, exampleRecords, realTimeOf, statsMean]
    have hmed : statsMedian (timesOf exampleRecords) = 3 := by decide
    have hmin : listMin (timesOf exampleRecords) = 1 := by decide
    have hmax : listMax (timesOf exampleRecords) = 5 := by decide
    rw [generate_summary_stats, if_neg (by decide)]
    simp only [summaryStatsCore]
    rw [havg, hmed, hmin, hmax]
    decide

theorem C4_summary_stats_witness :
    generate_summary_stats exampleRecords =
      some ⟨5, 3, 3, 1, 5, 5⟩ :=
  (C4_summary_stats exampleRecords (by decide)).2

/-- C5: a missing input source makes `main` report failure with exit code 1
and the output destination untouched; more generally any load failure makes
`generate_report` return failure before any output is written. -/
theorem C5_load_failure (inputExists : Bool) (load : Option (Option BenchData))
    (ts inputName : String) :
    (inputExists = false → mainRun inputExists load ts inputName = (1, none)) ∧
    (load = none → generate_report load ts inputName = (false, none)) ∧
    (load = none → mainRun inputExists load ts inputName = (1, none)) := by
  refine ⟨?_, ?_, ?_⟩
  · rintro rfl
    rfl
  · rintro rfl
    rfl
  · rintro rfl
    cases inputExists <;> rfl

theorem C5_load_failure_witness :
    mainRun false (some (some ⟨[], none⟩)) "2025-01-01 00:00:00" "benchmark_results.json"
      = (1, none) :=
  (C5_load_failure false (some (some ⟨[], none⟩)) "2025-01-01 00:00:00"
    "benchmark_results.json").1 rfl

/-- C6: summarizing an empty record sequence yields no summary dict, and
the renderer skips an empty category entirely — it contributes the empty
string to the document: no header, no summary grid, no table. -/
theorem C6_empty_category_skipped :
    generate_summary_stats [] = none ∧
    (∀ category_name : String, renderCategory category_name [] = "") ∧
    (∀ (category_name : String) (bs : List MeasurementRecord), bs.isEmpty = true →
      renderCategory category_name bs = "") := by
  refine ⟨rfl, fun _ => rfl, fun category_name bs hbs => ?_⟩
  rw [renderCategory, if_pos hbs]

theorem C6_empty_category_skipped_witness : renderCategory "Core" [] = "" :=
  C6_empty_category_skipped.2.2 "Core" [] rfl

/-- C7: a rendered category section embeds exactly the rows of the category
sorted ascending by `real_time` — the sorted list is a permutation of the
category, pairwise non-decreasing in `real_time` — and the severity tag of
a row is "good" below 1,000,000 ns, "warning" below 10,000,000 ns, and
"danger" otherwise. -/
theorem C7_table_order_severity (bs : List MeasurementRecord) :
    (sortedByRealTime bs).Perm bs ∧
    (sortedByRealTime bs).Pairwise (fun a b => realTimeOf a ≤ realTimeOf b) ∧
    (∀ (category_name : String) (stats : SummaryStats),
      ∃ pre post, sectionHtml category_name stats bs =
        pre ++ String.join ((sortedByRealTime bs).map rowHtml) ++ post) ∧
    (∀ rt : ℚ, (rt < 1000000 → time_class rt = "good") ∧
      (1000000 ≤ rt → rt < 10000000 → time_class rt = "warning") ∧
      (10000000 ≤ rt → time_class rt = "danger")) := by
  refine ⟨List.perm_insertionSort rtLe bs, List.sorted_insertionSort rtLe bs,
    fun category_name stats => ⟨_, _, rfl⟩, fun rt => ⟨?_, ?_, ?_⟩⟩
  · intro h1
    rw [time_class, if_pos h1]
  · intro h1 h2
    rw [time_class, if_neg (not_lt.2 h1), if_pos h2]
  · intro h1
    rw [time_class, if_neg (not_lt.2 (by linarith)), if_neg (not_lt.2 h1)]

theorem C7_table_order_severity_witness : time_class 500000 = "good" :=
  ((C7_table_order_severity []).2.2.2 500000).1 (by decide)

/-- C8 counterexample: the claim "an empty or missing name defaults the
name to Unknown" fails on the code for the empty-but-present name: the
renderer's `benchmark.get('name', 'Unknown')` returns the present value
`""` unchanged, not `"Unknown"`. -/
theorem C8_name_default_cex :
    ¬ (∀ b : MeasurementRecord, (b.name = none ∨ b.name = some "") →
        nameForRow b = "Unknown" ∧ categoryOf b = .other) := by
  intro hall
  have hfalse := (hall ⟨some "", none, none, none, none⟩ (Or.inr rfl)).1
  exact absurd hfalse (by decide)

/-- C8 amended: a missing name renders as "Unknown" and classifies to
Other; an empty-but-present name classifies to Other as well but renders as
the empty string, not "Unknown". -/
theorem C8_name_default_amended (b : MeasurementRecord) :
    (b.name = none → nameForRow b = "Unknown" ∧ categoryOf b = .other) ∧
    (b.name = some "" → nameForRow b = "" ∧ categoryOf b = .other) := by
  constructor
  · intro h
    constructor
    · rw [nameForRow, h]
      rfl
    · rw [categoryOf, nameForClassify, h]
      decide
  · intro h
    constructor
    · rw [nameForRow, h]
      rfl
    · rw [categoryOf, nameForClassify, h]
      decide

theorem C8_name_default_amended_witness :
    nameForRow ⟨none, none, none, none, none⟩ = "Unknown" ∧
      categoryOf ⟨none, none, none, none, none⟩ = Category.other :=
  (C8_name_default_amended ⟨none, none, none, none, none⟩).1 rfl

/-- C9: rendering is a pure function of the loaded data, the timestamp and
the input name, and the timestamp occupies a single slice of the document:
the output factors as `pre ++ ts ++ post` with `pre`/`post` independent of
`ts`, so renders with the same data agree byte-for-byte except that slice,
and renders with equal timestamps are byte-identical. -/
theorem C9_render_deterministic (d : BenchData) (ts1 ts2 inputName : String) :
    ∃ pre post,
      generate_html_report (some d) ts1 inputName = pre ++ ts1 ++ post ∧
      generate_html_report (some d) ts2 inputName = pre ++ ts2 ++ post ∧
      (ts1 = ts2 →
        generate_html_report (some d) ts1 inputName =
          generate_html_report (some d) ts2 inputName) := by
  refine ⟨htmlHead,
    infoAfterTs d ++ categorySectionsHtml d ++ footerHtml inputName, ?_, ?_, ?_⟩
  · simp [generate_html_report, renderFull, String.append_assoc]
  · simp [generate_html_report, renderFull, String.append_assoc]
  · rintro rfl
    rfl

theorem C9_render_deterministic_witness :
    ∃ pre post,
      generate_html_report (some ⟨[], none⟩) "2025-01-01 00:00:00" "r.json"
        = pre ++ "2025-01-01 00:00:00" ++ post ∧
      generate_html_report (some ⟨[], none⟩) "2025-01-01 00:00:00" "r.json"
        = pre ++ "2025-01-01 00:00:00" ++ post ∧
      ("2025-01-01 00:00:00" = "2025-01-01 00:00:00" →
        generate_html_report (some ⟨[], none⟩) "2025-01-01 00:00:00" "r.json" =
          generate_html_report (some ⟨[], none⟩) "2025-01-01 00:00:00" "r.json") :=
  C9_render_deterministic ⟨[], none⟩ "2025-01-01 00:00:00" "2025-01-01 00:00:00" "r.json"

/-- C10: a record with absent `real_time` reads as 0 everywhere the field
is used: it contributes the value 0 to the category's statistics list, the
category minimum becomes 0 when all other values are non-negative, the head
of the table's ascending sort then has real time 0, its severity tag is
"good", and its time renders as "0.00 ns". -/
theorem C10_missing_real_time (b : MeasurementRecord) (h : b.real_time = none) :
    realTimeOf b = 0 ∧
    time_class (realTimeOf b) = "good" ∧
    format_time (realTimeOf b) = "0.00 ns" ∧
    (∀ bs : List MeasurementRecord, b ∈ bs → (0 : ℚ) ∈ timesOf bs) ∧
    (∀ bs : List MeasurementRecord, b ∈ bs →
      (∀ c ∈ bs, 0 ≤ realTimeOf c) → (summaryStatsCore bs).min_time = 0) ∧
    (∀ bs : List MeasurementRecord, b ∈ bs →
      (∀ c ∈ bs, 0 ≤ realTimeOf c) →
      ∀ hd tl, sortedByRealTime bs = hd :: tl → realTimeOf hd = 0) := by
  have h0 : realTimeOf b = 0 := by rw [realTimeOf, h]; rfl
  have hzmem : ∀ bs : List MeasurementRecord, b ∈ bs → (0 : ℚ) ∈ timesOf bs := by
    intro bs hmem
    rw [timesOf]
    exact List.mem_map.2 ⟨b, hmem, h0⟩
  refine ⟨h0, by rw [h0]; decide, by rw [h0]; decide, hzmem, ?_, ?_⟩
  · intro bs hmem hnn
    have hne : timesOf bs ≠ [] := by
      intro hnil
      have hz := hzmem bs hmem
      rw [hnil] at hz
      simp at hz
    have hle : listMin (timesOf bs) ≤ 0 := listMin_le _ 0 (hzmem bs hmem)
    have hge : 0 ≤ listMin (timesOf bs) := by
      obtain ⟨c, hc, hceq⟩ := List.mem_map.1 (listMin_mem (timesOf bs) hne)
      rw [← hceq]
      exact hnn c hc
    exact le_antisymm hle hge
  · intro bs hmem hnn hd tl hsort
    have hperm : (sortedByRealTime bs).Perm bs := List.perm_insertionSort rtLe bs
    have hsorted : List.Sorted rtLe (sortedByRealTime bs) :=
      List.sorted_insertionSort rtLe bs
    have hbmem : b ∈ sortedByRealTime bs := hperm.mem_iff.2 hmem
    have hdmem : hd ∈ bs := hperm.mem_iff.1 (by rw [hsort]; exact List.mem_cons_self _ _)
    rw [hsort] at hbmem hsorted
    have hge : 0 ≤ realTimeOf hd := hnn hd hdmem
    have hle : realTimeOf hd ≤ 0 := by
      rcases List.mem_cons.1 hbmem with heq | htl
      · rw [← heq, h0]
      · have hrel : rtLe hd b := (List.sorted_cons.1 hsorted).1 b htl
        rw [rtLe, h0] at hrel
        exact hrel
    exact le_antisymm hle hge

theorem C10_missing_real_time_witness :
    format_time (realTimeOf ⟨some "X", none, none, none, none⟩) = "0.00 ns" :=
  (C10_missing_real_time ⟨some "X", none, none, none, none⟩ rfl).2.2.1

end PerfReport
